import Mathlib

/-!
Shallow embedding of the `transaction-check-api` service (`src/index.ts`).

The service is a single-route HTTP lookup: `POST /api/payment/v2/:site/:id`
probes a key-value store (Redis) under a provider-specific key and three
legacy keys, parses the stored JSON, normalizes the status string and
assembles a fixed response envelope.

Modelling choices:
* Store reads (`redis.get`) are modelled by a function `String → ReadResult`
  where a read can raise (`err`, a connection failure caught by the
  handler's `try`/`catch`), miss (`missing`, a Redis nil) or return a raw
  string value.
* `JSON.parse` is modelled by a parameter `parse : String → Option JsonVal`
  (`none` = the parse throws a `SyntaxError`, caught locally).  Universal
  theorems hold for every such function, hence in particular for real
  `JSON.parse`; the concrete instance used in witnesses agrees with ECMA
  `JSON.parse` on every string stored by the concrete stores below.
* JSON numbers are modelled as `Int` (all numbers appearing in the claims
  are integers; `NaN` cannot be produced by `JSON.parse`).
* JavaScript truthiness of parsed values is `truthy` below; the JavaScript
  `toLowerCase` is modelled character-wise (`jsToLowerCase`) — the statuses
  in play are ASCII.
-/

namespace TransactionCheck

/-- A parsed JSON value, the result of `JSON.parse` on a stored record.
An object is its list of key/value pairs (`JSON.parse` yields distinct keys;
property access is association-list lookup). -/
inductive JsonVal where
  | jnull : JsonVal
  | jbool (b : Bool) : JsonVal
  | jnum (n : Int) : JsonVal
  | jstr (s : String) : JsonVal
  | jarr (elems : List JsonVal) : JsonVal
  | jobj (fields : List (String × JsonVal)) : JsonVal

/-- JavaScript truthiness of a parsed JSON value (`if (transaction)` etc.):
`null`, `false`, `0` and `""` are falsy; arrays and objects are truthy. -/
def truthy : JsonVal → Bool
  | .jnull => false
  | .jbool b => b
  | .jnum n => n != 0
  | .jstr s => s != ""
  | .jarr _ => true
  | .jobj _ => true

/-- Result of one `redis.get`: the read may throw, miss (Redis nil), or
return a raw string. -/
inductive ReadResult where
  | err : ReadResult
  | missing : ReadResult
  | val (s : String) : ReadResult

/-- The store (Redis) as seen by one request: a raw value per key. -/
def Store := String → ReadResult

/-- Source constant `KEY_PREFIX = 'kob:transaction'`. -/
def KEY_NS : String := "kob:transaction"

/-- Source constant `TRANSACTION_TYPES = ['deposit', 'withdraw', 'settlement']`. -/
def TRANSACTION_TYPES : List String := ["deposit", "withdraw", "settlement"]

/-- The provider-specific key `kob:ttf:compay:` + `id` — built from `id` alone. -/
def providerKey (id : String) : String := "kob:ttf:compay:" ++ id

/-- A legacy key `KEY_PREFIX:type:site:id`. -/
def legacyKey (ty site id : String) : String :=
  KEY_NS ++ ":" ++ ty ++ ":" ++ site ++ ":" ++ id

/-- All candidate keys one request may probe, in probe order. -/
def candidateKeys (site id : String) : List String :=
  providerKey id :: TRANSACTION_TYPES.map (fun ty => legacyKey ty site id)

/-- Outcome of the resolution phase: `outcome` is the final value of the
`transaction` variable (`none` = JS `null`), or `.error ()` when a store read
threw (propagating to the handler's `catch`); `reads` lists the keys read,
in order. -/
structure ResolveOut where
  outcome : Except Unit (Option JsonVal)
  reads : List String

/-- The legacy fallback loop (`for (const type of TRANSACTION_TYPES) ...`).
`t` is the current value of the `transaction` variable.  A nonempty raw value
that parses breaks the loop (even when the parsed value is falsy); a miss, an
empty raw string (`if (data)` is false) or a parse failure falls through to
the next type. -/
def legacyLoop (parse : String → Option JsonVal) (store : Store)
    (site id : String) : List String → Option JsonVal → ResolveOut
  | [], t => ⟨.ok t, []⟩
  | ty :: rest, t =>
    let key := legacyKey ty site id
    match store key with
    | .err => ⟨.error (), [key]⟩
    | .missing =>
        let r := legacyLoop parse store site id rest t
        ⟨r.outcome, key :: r.reads⟩
    | .val s =>
        if s = "" then
          let r := legacyLoop parse store site id rest t
          ⟨r.outcome, key :: r.reads⟩
        else
          match parse s with
          | none =>
              let r := legacyLoop parse store site id rest t
              ⟨r.outcome, key :: r.reads⟩
          | some v => ⟨.ok (some v), [key]⟩

/-- The resolution phase of the handler: probe the provider key first; when
the resulting `transaction` is not truthy (`if (!transaction)`), run the
legacy loop. -/
def resolve (parse : String → Option JsonVal) (store : Store)
    (site id : String) : ResolveOut :=
  let pk := providerKey id
  match store pk with
  | .err => ⟨.error (), [pk]⟩
  | .missing =>
      let r := legacyLoop parse store site id TRANSACTION_TYPES none
      ⟨r.outcome, pk :: r.reads⟩
  | .val s =>
      let t : Option JsonVal := if s = "" then none else parse s
      match t with
      | some v =>
          if truthy v then ⟨.ok (some v), [pk]⟩
          else
            let r := legacyLoop parse store site id TRANSACTION_TYPES (some v)
            ⟨r.outcome, pk :: r.reads⟩
      | none =>
          let r := legacyLoop parse store site id TRANSACTION_TYPES none
          ⟨r.outcome, pk :: r.reads⟩

/-- JavaScript `String.prototype.toLowerCase`, character-wise (ASCII scope). -/
def jsToLowerCase (s : String) : String := ⟨s.data.map Char.toLower⟩

/-- JavaScript property access `v.k` on a parsed value: `undefined` (`none`)
unless `v` is an object with the key. -/
def getField : JsonVal → String → Option JsonVal
  | .jobj fields, k => fields.lookup k
  | _, _ => none

/-- `transaction.status?.toLowerCase()`: `undefined`/`null` short-circuit to
`undefined` (`none`); a string is case-folded; any other value throws a
`TypeError` (`.toLowerCase` is not a function), modelled as `.error ()`. -/
def statusToLower (v : Option JsonVal) : Except Unit (Option String) :=
  match v with
  | none => .ok none
  | some .jnull => .ok none
  | some (.jstr s) => .ok (some (jsToLowerCase s))
  | some _ => .error ()

/-- Lines 241–246 of the handler:
`let status = transaction.status?.toLowerCase() || 'pending';`
`if (status === 'created') status = 'pending';` -/
def normalizeStatus (v : JsonVal) : Except Unit String :=
  match statusToLower (getField v "status") with
  | .error e => .error e
  | .ok low =>
      let st := match low with
        | none => "pending"
        | some s => if s = "" then "pending" else s
      .ok (if st = "created" then "pending" else st)

/-- The `data` part of the response envelope.  `amount` is a `JsonVal`
because `transaction.amount || 0` passes any truthy stored value through
unchanged, whatever its type. -/
structure TransactionPayload where
  status : String
  amount : JsonVal

/-- The response envelope (`TransactionResponse` in the source). -/
structure TransactionResponse where
  status : Bool
  message : String
  data : TransactionPayload

/-- `amount: transaction.amount || 0`. -/
def responseAmount (v : JsonVal) : JsonVal :=
  match getField v "amount" with
  | none => .jnum 0
  | some a => if truthy a then a else .jnum 0

/-- The response assembled from a found (truthy) record; status
normalization may throw (propagating to the handler's `catch`). -/
def foundResponse (v : JsonVal) : Except Unit TransactionResponse :=
  match normalizeStatus v with
  | .error e => .error e
  | .ok st => .ok ⟨true, "", ⟨st, responseAmount v⟩⟩

/-- The `notFoundResponse` constant of the source. -/
def notFoundResponse : TransactionResponse := ⟨true, "", ⟨"pending", .jnum 0⟩⟩

/-- The `errorResponse` constant of the source (same content as
`notFoundResponse`). -/
def errorResponse : TransactionResponse := ⟨true, "", ⟨"pending", .jnum 0⟩⟩

/-- The whole business-route handler body: resolve, then `if (transaction)`
(a truthiness test) selects found vs not-found; any exception — a store read
throwing or status normalization throwing — lands in the `catch` and yields
`errorResponse`. -/
def handleTransaction (parse : String → Option JsonVal) (store : Store)
    (site id : String) : TransactionResponse :=
  match (resolve parse store site id).outcome with
  | .error _ => errorResponse
  | .ok t =>
      match t with
      | some v =>
          if truthy v then
            match foundResponse v with
            | .error _ => errorResponse
            | .ok r => r
          else notFoundResponse
      | none => notFoundResponse

/-- The handler together with its header handling: `x-debug-key` defaults to
`'N/A'`, `x-correlation-id` to a generated UUID (`uuid` input); both feed
only the log lines (second component). -/
def handleFull (parse : String → Option JsonVal) (store : Store)
    (site id : String) (debugKeyHdr correlationIdHdr : Option String)
    (uuid : String) : TransactionResponse × List String :=
  let debugKey := debugKeyHdr.getD "N/A"
  let correlationId := correlationIdHdr.getD uuid
  let checkingLog := "[" ++ debugKey ++ "] " ++ correlationId ++
    " Checking transaction " ++ id ++ " for site " ++ site
  (handleTransaction parse store site id, [checkingLog])

/-- Process-wide shutdown flag (`let isShuttingDown = false`). -/
structure ServerState where
  isShuttingDown : Bool

/-- The state before any termination signal. -/
def runningState : ServerState := ⟨false⟩

/-- The body returned by the shutdown middleware
(`{status:'error', message:'Service is shutting down', timestamp}`). -/
structure ShutdownResponseBody where
  status : String
  message : String
  timestamp : String

/-- The fixed shutting-down body, up to the request-time timestamp. -/
def shutdownResponseBody (ts : String) : ShutdownResponseBody :=
  ⟨"error", "Service is shutting down", ts⟩

/-- Bodies the service can answer with. -/
inductive HttpBody where
  | envelope (r : TransactionResponse) : HttpBody
  | shuttingDown (b : ShutdownResponseBody) : HttpBody
  | healthOk (latencyMs : Nat) (timestamp : String) : HttpBody
  | healthFail (errMsg : String) (timestamp : String) : HttpBody

/-- The routes of the app. -/
inductive Route where
  | paymentV2 (site id : String) : Route
  | health : Route

/-- The `/health` handler: 200 on a successful ping, 503 otherwise. -/
def healthHandler (pingOk : Bool) (latencyMs : Nat) (errMsg ts : String) :
    Nat × HttpBody :=
  if pingOk then (200, .healthOk latencyMs ts) else (503, .healthFail errMsg ts)

/-- Request dispatch: the `app.use('*')` shutdown middleware runs before any
route; when the flag is set every route answers 503 with the shutting-down
body. Otherwise the route's handler runs (the business route always answers
200 with an envelope). -/
def dispatch (st : ServerState) (ts : String)
    (parse : String → Option JsonVal) (store : Store)
    (pingOk : Bool) (latencyMs : Nat) (errMsg : String) :
    Route → Nat × HttpBody
  | r =>
    if st.isShuttingDown then (503, .shuttingDown (shutdownResponseBody ts))
    else
      match r with
      | .paymentV2 site id =>
          (200, .envelope (handleTransaction parse store site id))
      | .health => healthHandler pingOk latencyMs errMsg ts

/-- The effect of `gracefulShutdown(signal)` on the flag: an early return
when already shutting down (`startsSequence = false`), otherwise the flag is
set and the drain sequence starts. -/
structure ShutdownAction where
  state : ServerState
  startsSequence : Bool

/-- `gracefulShutdown`: idempotent trigger of the drain sequence. -/
def gracefulShutdown (st : ServerState) : ShutdownAction :=
  if st.isShuttingDown then ⟨st, false⟩ else ⟨⟨true⟩, true⟩

/-- Key `k` is treated as a miss by the probing code: absent, empty raw value
(`if (data)` fails) or parse failure. -/
def treatedAsMiss (parse : String → Option JsonVal) : ReadResult → Bool
  | .err => false
  | .missing => true
  | .val s => s == "" || (parse s).isNone

/-- Removing one key from a store. -/
def storeRemove (store : Store) (k : String) : Store :=
  fun k2 => if k2 = k then .missing else store k2

/-! Concrete JSON texts and stores used by witnesses and counterexamples.
Each text below is real JSON and its listed parse matches ECMA `JSON.parse`. -/

def recSuccessedText : String := "\x7b\"status\":\"successed\",\"amount\":300\x7d"

def recSuccessedVal : JsonVal :=
  .jobj [("status", .jstr "successed"), ("amount", .jnum 300)]

def recSendedStrAmtText : String := "\x7b\"status\":\"sended\",\"amount\":\"x\"\x7d"

def recSendedStrAmtVal : JsonVal :=
  .jobj [("status", .jstr "sended"), ("amount", .jstr "x")]

def recPending500Text : String := "\x7b\"status\":\"pending\",\"amount\":500\x7d"

def recPending500Val : JsonVal :=
  .jobj [("status", .jstr "pending"), ("amount", .jnum 500)]

def recNumStatusText : String := "\x7b\"status\":7,\"amount\":300\x7d"

def recNumStatusVal : JsonVal :=
  .jobj [("status", .jnum 7), ("amount", .jnum 300)]

/-- A finite restriction of ECMA `JSON.parse`: it agrees with `JSON.parse`
on every string the concrete stores below hold (including the malformed
`"not-json"`, on which `JSON.parse` throws), and rejects everything else. -/
def parseDemo (s : String) : Option JsonVal :=
  if s = "null" then some .jnull
  else if s = "0" then some (.jnum 0)
  else if s = recSuccessedText then some recSuccessedVal
  else if s = recSendedStrAmtText then some recSendedStrAmtVal
  else if s = recPending500Text then some recPending500Val
  else if s = recNumStatusText then some recNumStatusVal
  else none

/-- A store with no entries. -/
def emptyStore : Store := fun _ => .missing

/-- Store for the C3 witness: records at both the provider key and the
legacy deposit key for the same id. -/
def storeProviderAndLegacy : Store := fun k =>
  if k = providerKey "id3" then .val recSuccessedText
  else if k = legacyKey "deposit" "siteA" "id3" then .val recPending500Text
  else .missing

/-- Store for the C4 witness: a malformed value at the provider key. -/
def storeMalformedProvider : Store := fun k =>
  if k = providerKey "id4" then .val "not-json" else .missing

/-- Store for the C5 theorems: a record whose amount is a truthy
non-numeric value (the string `"x"`). -/
def storeStringAmount : Store := fun k =>
  if k = providerKey "id5" then .val recSendedStrAmtText else .missing

/-- Store for the C9 counterexample: provider key absent, a falsy JSON value
(`null`) at the deposit key and a valid truthy record at the withdraw key. -/
def storeFalsyThenValid : Store := fun k =>
  if k = legacyKey "deposit" "siteB" "id9" then .val "null"
  else if k = legacyKey "withdraw" "siteB" "id9" then .val recSuccessedText
  else .missing

/-- Store for the C9 amended witness: a falsy JSON value (`0`) at the
provider key and a falsy JSON value (`null`) at the deposit key. -/
def storeFalsyProvider : Store := fun k =>
  if k = providerKey "id9" then .val "0"
  else if k = legacyKey "deposit" "siteB" "id9" then .val "null"
  else .missing

/-- Store for the C10 witness: a record whose status is a truthy number. -/
def storeNumStatus : Store := fun k =>
  if k = providerKey "id10" then .val recNumStatusText else .missing

/-! ### Helper lemmas -/

/-- When every remaining legacy key is treated as a miss, the loop leaves
`transaction` unchanged and reads every remaining key in order. -/
theorem legacyLoop_allMiss (parse : String → Option JsonVal) (store : Store)
    (site id : String) :
    ∀ (tys : List String) (t : Option JsonVal),
      (∀ ty ∈ tys, treatedAsMiss parse (store (legacyKey ty site id)) = true) →
      legacyLoop parse store site id tys t
        = ⟨.ok t, tys.map (fun ty => legacyKey ty site id)⟩ := by
  intro tys
  induction tys with
  | nil => intro t _; rfl
  | cons ty rest ih =>
    intro t h
    have hty := h ty (List.mem_cons_self ty rest)
    have hrest : ∀ ty2 ∈ rest,
        treatedAsMiss parse (store (legacyKey ty2 site id)) = true :=
      fun ty2 hm => h ty2 (List.mem_cons_of_mem ty hm)
    cases hstore : store (legacyKey ty site id) with
    | err =>
      rw [hstore] at hty
      exact absurd hty (by simp [treatedAsMiss])
    | missing => simp [legacyLoop, hstore, ih t hrest]
    | val s =>
      rw [hstore] at hty
      simp only [treatedAsMiss, Bool.or_eq_true, beq_iff_eq,
        Option.isNone_iff_eq_none] at hty
      by_cases hs : s = ""
      · simp [legacyLoop, hstore, hs, ih t hrest]
      · have hp : parse s = none := hty.resolve_left hs
        simp [legacyLoop, hstore, hs, hp, ih t hrest]

/-- When every candidate key is treated as a miss, resolution ends with a
`null` transaction after reading every candidate key in order. -/
theorem resolve_allMiss (parse : String → Option JsonVal) (store : Store)
    (site id : String)
    (h : ∀ k ∈ candidateKeys site id, treatedAsMiss parse (store k) = true) :
    resolve parse store site id = ⟨.ok none, candidateKeys site id⟩ := by
  have hpk : treatedAsMiss parse (store (providerKey id)) = true :=
    h (providerKey id) (by simp [candidateKeys])
  have hl : ∀ ty ∈ TRANSACTION_TYPES,
      treatedAsMiss parse (store (legacyKey ty site id)) = true := by
    intro ty hty
    refine h (legacyKey ty site id) ?_
    simp only [candidateKeys, List.mem_cons, List.mem_map]
    exact Or.inr ⟨ty, hty, rfl⟩
  have hloop := legacyLoop_allMiss parse store site id TRANSACTION_TYPES none hl
  cases hstore : store (providerKey id) with
  | err =>
    rw [hstore] at hpk
    exact absurd hpk (by simp [treatedAsMiss])
  | missing => simp [resolve, hstore, hloop, candidateKeys]
  | val s =>
    rw [hstore] at hpk
    simp only [treatedAsMiss, Bool.or_eq_true, beq_iff_eq,
      Option.isNone_iff_eq_none] at hpk
    by_cases hs : s = ""
    · simp [resolve, hstore, hs, hloop, candidateKeys]
    · have hp : parse s = none := hpk.resolve_left hs
      simp [resolve, hstore, hs, hp, hloop, candidateKeys]

/-- Case-folding a string is empty exactly when the string is. -/
theorem jsToLowerCase_eq_empty_iff (s : String) :
    jsToLowerCase s = "" ↔ s = "" := by
  constructor
  · intro h
    have hmap : s.data.map Char.toLower = [] := by
      simpa [jsToLowerCase] using congrArg String.data h
    have hdata : s.data = [] := List.map_eq_nil_iff.mp hmap
    cases s
    simp_all
  · intro h
    subst h
    rfl

/-- Removing a key the probing code treats as a miss does not change the
legacy loop at all. -/
theorem legacyLoop_removeMiss (parse : String → Option JsonVal)
    (store : Store) (site id k : String)
    (hk : treatedAsMiss parse (store k) = true) :
    ∀ (tys : List String) (t : Option JsonVal),
      legacyLoop parse (storeRemove store k) site id tys t
        = legacyLoop parse store site id tys t := by
  intro tys
  induction tys with
  | nil => intro t; rfl
  | cons ty rest ih =>
    intro t
    by_cases hkey : legacyKey ty site id = k
    · subst hkey
      cases hstore : store (legacyKey ty site id) with
      | err =>
        rw [hstore] at hk
        exact absurd hk (by simp [treatedAsMiss])
      | missing => simp [legacyLoop, hstore, storeRemove, ih]
      | val s =>
        rw [hstore] at hk
        simp only [treatedAsMiss, Bool.or_eq_true, beq_iff_eq,
          Option.isNone_iff_eq_none] at hk
        by_cases hs : s = ""
        · simp [legacyLoop, hstore, storeRemove, hs, ih]
        · have hp : parse s = none := hk.resolve_left hs
          simp [legacyLoop, hstore, storeRemove, hs, hp, ih]
    · have hrm : storeRemove store k (legacyKey ty site id)
          = store (legacyKey ty site id) := by
        simp [storeRemove, hkey]
      cases hstore : store (legacyKey ty site id) with
      | err => simp [legacyLoop, hrm, hstore]
      | missing => simp [legacyLoop, hrm, hstore, ih]
      | val s =>
        by_cases hs : s = ""
        · simp [legacyLoop, hrm, hstore, hs, ih]
        · cases hp : parse s with
          | none => simp [legacyLoop, hrm, hstore, hs, hp, ih]
          | some v => simp [legacyLoop, hrm, hstore, hs, hp]

/-- Removing a key the probing code treats as a miss does not change
resolution at all (same outcome, same reads). -/
theorem resolve_removeMiss (parse : String → Option JsonVal) (store : Store)
    (site id k : String)
    (hk : treatedAsMiss parse (store k) = true) :
    resolve parse (storeRemove store k) site id
      = resolve parse store site id := by
  have hll := legacyLoop_removeMiss parse store site id k hk
  by_cases hkey : providerKey id = k
  · subst hkey
    cases hstore : store (providerKey id) with
    | err =>
      rw [hstore] at hk
      exact absurd hk (by simp [treatedAsMiss])
    | missing => simp [resolve, hstore, storeRemove, hll]
    | val s =>
      rw [hstore] at hk
      simp only [treatedAsMiss, Bool.or_eq_true, beq_iff_eq,
        Option.isNone_iff_eq_none] at hk
      by_cases hs : s = ""
      · simp [resolve, hstore, storeRemove, hs, hll]
      · have hp : parse s = none := hk.resolve_left hs
        simp [resolve, hstore, storeRemove, hs, hp, hll]
  · have hrm : storeRemove store k (providerKey id)
        = store (providerKey id) := by
      simp [storeRemove, hkey]
    cases hstore : store (providerKey id) with
    | err => simp [resolve, hrm, hstore]
    | missing => simp [resolve, hrm, hstore, hll]
    | val s =>
      by_cases hs : s = ""
      · simp [resolve, hrm, hstore, hs, hll]
      · cases hp : parse s with
        | none => simp [resolve, hrm, hstore, hs, hp, hll]
        | some v =>
          by_cases hv : truthy v = true
          · simp [resolve, hrm, hstore, hs, hp, hv]
          · simp [resolve, hrm, hstore, hs, hp, hv, hll]

/-- The legacy loop reads at most one key per remaining transaction type. -/
theorem legacyLoop_reads_length_le (parse : String → Option JsonVal)
    (store : Store) (site id : String) :
    ∀ (tys : List String) (t : Option JsonVal),
      (legacyLoop parse store site id tys t).reads.length ≤ tys.length := by
  intro tys
  induction tys with
  | nil => intro t; simp [legacyLoop]
  | cons ty rest ih =>
    intro t
    cases hstore : store (legacyKey ty site id) with
    | err =>
      simp only [legacyLoop, hstore, List.length_cons]
      exact Nat.succ_le_succ (Nat.zero_le _)
    | missing =>
      simp only [legacyLoop, hstore, List.length_cons]
      exact Nat.succ_le_succ (ih t)
    | val s =>
      by_cases hs : s = ""
      · simp only [legacyLoop, hstore, hs, if_pos, List.length_cons]
        exact Nat.succ_le_succ (ih t)
      · cases hp : parse s with
        | none =>
          simp only [legacyLoop, hstore, if_neg hs, hp, List.length_cons]
          exact Nat.succ_le_succ (ih t)
        | some v =>
          simp only [legacyLoop, hstore, if_neg hs, hp, List.length_cons,
            List.length_nil]
          exact Nat.succ_le_succ (Nat.zero_le _)

/-! ### Claims -/

/-- C1: for every request to `POST /api/payment/v2/:site/:id` in which no
probed key yields a usable record (all reads miss) or an exception is raised
during resolution, the endpoint returns HTTP 200 with exactly the envelope
`{status:true, message:"", data:{status:"pending", amount:0}}`. -/
theorem c1_miss_or_error_yields_pending_envelope
    (parse : String → Option JsonVal) (store : Store) (site id : String)
    (st : ServerState) (ts errMsg : String) (pingOk : Bool) (latencyMs : Nat)
    (hrun : st.isShuttingDown = false)
    (h : (∀ k ∈ candidateKeys site id, store k = ReadResult.missing)
       ∨ (resolve parse store site id).outcome = .error ()) :
    dispatch st ts parse store pingOk latencyMs errMsg (.paymentV2 site id)
      = (200, .envelope notFoundResponse)
    ∧ notFoundResponse
      = ⟨true, "", ⟨"pending", .jnum 0⟩⟩ := by
  refine ⟨?_, rfl⟩
  have hbody : handleTransaction parse store site id = notFoundResponse := by
    rcases h with hmiss | herr
    · have hall : ∀ k ∈ candidateKeys site id,
          treatedAsMiss parse (store k) = true := by
        intro k hk
        rw [hmiss k hk]
        rfl
      have hres := resolve_allMiss parse store site id hall
      simp [handleTransaction, hres]
    · simp only [handleTransaction, herr]
      rfl
  simp [dispatch, hrun, hbody]

/-- Witness for C1 at a concrete input: the empty store, a running server. -/
theorem c1_witness :
    runningState.isShuttingDown = false
    ∧ (∀ k ∈ candidateKeys "siteA" "id1", emptyStore k = ReadResult.missing)
    ∧ dispatch runningState "ts" parseDemo emptyStore true 0 "e"
        (.paymentV2 "siteA" "id1")
        = (200, .envelope notFoundResponse) :=
  ⟨rfl, fun _ _ => rfl,
    (c1_miss_or_error_yields_pending_envelope parseDemo emptyStore
      "siteA" "id1" runningState "ts" "e" true 0 rfl
      (Or.inl (fun _ _ => rfl))).1⟩

/-- C2: the status normalizer maps absent or empty input to `"pending"`,
otherwise case-folds to lowercase, rewrites `"created"` to `"pending"`, and
returns any other case-folded value unchanged (e.g. `"SUCCESS" ↦ "success"`,
`"sended" ↦ "sended"`, `"successed" ↦ "successed"`), with no other alias
rewrites. -/
theorem c2_status_normalizer_spec (s : String) :
    normalizeStatus (.jobj []) = .ok "pending"
    ∧ normalizeStatus (.jobj [("status", .jstr "")]) = .ok "pending"
    ∧ normalizeStatus (.jobj [("status", .jstr s)])
        = .ok (if s = "" then "pending"
               else if jsToLowerCase s = "created" then "pending"
               else jsToLowerCase s)
    ∧ normalizeStatus (.jobj [("status", .jstr "SUCCESS")]) = .ok "success"
    ∧ normalizeStatus (.jobj [("status", .jstr "sended")]) = .ok "sended"
    ∧ normalizeStatus (.jobj [("status", .jstr "successed")])
        = .ok "successed" := by
  refine ⟨rfl, rfl, ?_, rfl, rfl, rfl⟩
  by_cases hs : s = ""
  · subst hs
    rfl
  · have hne : jsToLowerCase s ≠ "" :=
      fun h => hs ((jsToLowerCase_eq_empty_iff s).mp h)
    simp [normalizeStatus, statusToLower, getField, List.lookup, hs, hne]

/-- C3: when both a parseable record at the provider-specific key
`kob:ttf:compay:{id}` and a parseable record at the legacy deposit key
exist, the response is built from the provider-specific record: the provider
key is probed first, its hit short-circuits all legacy probes (only the
provider key is read), and the provider key is built from `id` alone so the
response is the same for every `site`. -/
theorem c3_provider_key_priority
    (parse : String → Option JsonVal) (store : Store) (site id : String)
    (s1 s2 : String) (fields1 fields2 : List (String × JsonVal))
    (hp : store (providerKey id) = .val s1) (hne1 : s1 ≠ "")
    (hq : parse s1 = some (.jobj fields1))
    (hl : store (legacyKey "deposit" site id) = .val s2) (hne2 : s2 ≠ "")
    (hm : parse s2 = some (.jobj fields2)) :
    resolve parse store site id
      = ⟨.ok (some (.jobj fields1)), [providerKey id]⟩
    ∧ handleTransaction parse store site id
        = (match foundResponse (.jobj fields1) with
           | .error _ => errorResponse
           | .ok r => r)
    ∧ (∀ site2, handleTransaction parse store site2 id
        = handleTransaction parse store site id)
    ∧ providerKey id = "kob:ttf:compay:" ++ id := by
  have hres : ∀ site2, resolve parse store site2 id
      = ⟨.ok (some (.jobj fields1)), [providerKey id]⟩ := by
    intro site2
    simp [resolve, hp, hne1, hq, truthy]
  refine ⟨hres site, ?_, ?_, rfl⟩
  · simp [handleTransaction, hres site, truthy]
  · intro site2
    simp [handleTransaction, hres site2, hres site]

/-- Witness for C3 at a concrete input: records at both the provider key
and the legacy deposit key; the provider record (`successed`, 300) wins. -/
theorem c3_witness :
    storeProviderAndLegacy (providerKey "id3") = ReadResult.val recSuccessedText
    ∧ parseDemo recSuccessedText = some recSuccessedVal
    ∧ storeProviderAndLegacy (legacyKey "deposit" "siteA" "id3")
        = ReadResult.val recPending500Text
    ∧ parseDemo recPending500Text = some recPending500Val
    ∧ resolve parseDemo storeProviderAndLegacy "siteA" "id3"
        = ⟨.ok (some recSuccessedVal), [providerKey "id3"]⟩
    ∧ handleTransaction parseDemo storeProviderAndLegacy "siteA" "id3"
        = ⟨true, "", ⟨"successed", .jnum 300⟩⟩ := by
  have h := c3_provider_key_priority parseDemo storeProviderAndLegacy
    "siteA" "id3" recSuccessedText recPending500Text
    [("status", .jstr "successed"), ("amount", .jnum 300)]
    [("status", .jstr "pending"), ("amount", .jnum 500)]
    rfl (by decide) rfl rfl (by decide) rfl
  exact ⟨rfl, rfl, rfl, rfl, h.1, h.2.1⟩

/-- C4: a stored value that fails to parse at a probed key is treated
exactly like a miss for that key — the handler's response and the probed
keys are the same as if the key were absent — and when every candidate key
misses or is malformed the handler produces the not-found result after
probing every candidate key in order (provider key first, then legacy
deposit, withdraw, settlement). -/
theorem c4_malformed_is_miss
    (parse : String → Option JsonVal) (store : Store) (site id k s0 : String)
    (hk : k ∈ candidateKeys site id)
    (hv : store k = .val s0) (hne : s0 ≠ "") (hp : parse s0 = none) :
    handleTransaction parse store site id
      = handleTransaction parse (storeRemove store k) site id
    ∧ (resolve parse store site id).reads
      = (resolve parse (storeRemove store k) site id).reads
    ∧ ((∀ k2 ∈ candidateKeys site id,
          treatedAsMiss parse (store k2) = true) →
        handleTransaction parse store site id = notFoundResponse
        ∧ (resolve parse store site id).reads = candidateKeys site id) := by
  have hmiss : treatedAsMiss parse (store k) = true := by
    rw [hv]
    simp [treatedAsMiss, hp]
  have hres := resolve_removeMiss parse store site id k hmiss
  refine ⟨by simp [handleTransaction, hres], by rw [hres], ?_⟩
  intro hall
  have hr := resolve_allMiss parse store site id hall
  exact ⟨by simp [handleTransaction, hr], by rw [hr]⟩

/-- Witness for C4 at a concrete input: a malformed value at the provider
key; the handler behaves as if the key were absent and, every candidate
missing or malformed, answers not-found after probing all four keys. -/
theorem c4_witness :
    storeMalformedProvider (providerKey "id4") = ReadResult.val "not-json"
    ∧ parseDemo "not-json" = none
    ∧ handleTransaction parseDemo storeMalformedProvider "siteA" "id4"
        = handleTransaction parseDemo
            (storeRemove storeMalformedProvider (providerKey "id4"))
            "siteA" "id4"
    ∧ handleTransaction parseDemo storeMalformedProvider "siteA" "id4"
        = notFoundResponse
    ∧ (resolve parseDemo storeMalformedProvider "siteA" "id4").reads
        = candidateKeys "siteA" "id4" := by
  have hall : ∀ k2 ∈ candidateKeys "siteA" "id4",
      treatedAsMiss parseDemo (storeMalformedProvider k2) = true := by
    intro k2 hk2
    simp only [candidateKeys, TRANSACTION_TYPES, List.map, List.mem_cons,
      List.not_mem_nil, or_false] at hk2
    rcases hk2 with rfl | rfl | rfl | rfl <;> rfl
  have h := c4_malformed_is_miss parseDemo storeMalformedProvider
    "siteA" "id4" (providerKey "id4") "not-json"
    (by simp [candidateKeys]) rfl (by decide) rfl
  exact ⟨rfl, rfl, h.1, (h.2.2 hall).1, (h.2.2 hall).2⟩

/-- C6 (amended): the handler performs at most four sequential key-value
reads per request — one read of the provider key and at most one read per
legacy transaction type. -/
theorem c6_at_most_four_reads (parse : String → Option JsonVal)
    (store : Store) (site id : String) :
    (resolve parse store site id).reads.length ≤ 4
    ∧ (candidateKeys site id).length = 4 := by
  refine ⟨?_, rfl⟩
  have hloop := legacyLoop_reads_length_le parse store site id
    TRANSACTION_TYPES
  cases hstore : store (providerKey id) with
  | err => simp [resolve, hstore]
  | missing =>
    simp only [resolve, hstore, List.length_cons]
    exact Nat.succ_le_succ (hloop none)
  | val s =>
    by_cases hs : s = ""
    · simp only [resolve, hstore, hs, if_pos, List.length_cons]
      exact Nat.succ_le_succ (hloop none)
    · cases hp : parse s with
      | none =>
        simp only [resolve, hstore, if_neg hs, hp, List.length_cons]
        exact Nat.succ_le_succ (hloop none)
      | some v =>
        by_cases hv : truthy v = true
        · simp [resolve, hstore, if_neg hs, hp, hv]
        · simp only [resolve, hstore, if_neg hs, hp, hv, Bool.false_eq_true,
            if_false, List.length_cons]
          exact Nat.succ_le_succ (hloop (some v))

/-- Counterexample to C6 as stated: on a store with no entries the handler
performs four reads, not at most two. -/
theorem c6_counterexample :
    (resolve parseDemo emptyStore "siteA" "id0").reads.length = 4
    ∧ ¬ ((resolve parseDemo emptyStore "siteA" "id0").reads.length ≤ 2) := by
  refine ⟨rfl, ?_⟩
  intro h
  rw [show (resolve parseDemo emptyStore "siteA" "id0").reads.length = 4
    from rfl] at h
  omega

/-- Counterexample to C5 as stated: a found record whose amount field is the
truthy non-numeric value `"x"` has that value passed through unchanged into
`data.amount`, rather than coerced to `0`. -/
theorem c5_counterexample :
    handleTransaction parseDemo storeStringAmount "siteA" "id5"
      = ⟨true, "", ⟨"sended", .jstr "x"⟩⟩
    ∧ (handleTransaction parseDemo storeStringAmount
        "siteA" "id5").data.amount ≠ JsonVal.jnum 0 := by
  refine ⟨rfl, ?_⟩
  rw [show (handleTransaction parseDemo storeStringAmount
    "siteA" "id5").data.amount = JsonVal.jstr "x" from rfl]
  exact fun h => nomatch h

/-- C5 (amended): for a found record, `data.amount` equals the record's
amount field whenever that field is JS-truthy — whatever its type — and `0`
when the field is absent or falsy; in particular a truthy non-numeric
amount passes through unchanged. -/
theorem c5_amount_truthy_passthrough
    (parse : String → Option JsonVal) (store : Store) (site id : String)
    (s0 : String) (fields : List (String × JsonVal)) (st : String)
    (hp : store (providerKey id) = .val s0) (hne : s0 ≠ "")
    (hq : parse s0 = some (.jobj fields))
    (hnorm : normalizeStatus (.jobj fields) = .ok st) :
    handleTransaction parse store site id
      = ⟨true, "", ⟨st, responseAmount (.jobj fields)⟩⟩
    ∧ responseAmount (.jobj fields)
        = (match fields.lookup "amount" with
           | none => .jnum 0
           | some a => if truthy a then a else .jnum 0) := by
  have hres : resolve parse store site id
      = ⟨.ok (some (.jobj fields)), [providerKey id]⟩ := by
    simp [resolve, hp, hne, hq, truthy]
  exact ⟨by simp [handleTransaction, hres, truthy, foundResponse, hnorm], rfl⟩

/-- Witness for C5 (amended) at a concrete input: the truthy string amount
`"x"` reaches the response unchanged. -/
theorem c5_witness :
    storeStringAmount (providerKey "id5") = ReadResult.val recSendedStrAmtText
    ∧ parseDemo recSendedStrAmtText = some recSendedStrAmtVal
    ∧ normalizeStatus recSendedStrAmtVal = .ok "sended"
    ∧ handleTransaction parseDemo storeStringAmount "siteA" "id5"
        = ⟨true, "", ⟨"sended", responseAmount recSendedStrAmtVal⟩⟩ := by
  have h := c5_amount_truthy_passthrough parseDemo storeStringAmount
    "siteA" "id5" recSendedStrAmtText
    [("status", .jstr "sended"), ("amount", .jstr "x")] "sended"
    rfl (by decide) rfl rfl
  exact ⟨rfl, rfl, rfl, h.1⟩

/-- C7: the response of the business endpoint is a deterministic pure
function of `(site, id)` and the store state: the `x-debug-key` and
`x-correlation-id` headers (and the generated correlation UUID) influence
only the log lines, never the response body, and two identical lookups
against the same store state yield identical responses (store reads are
non-mutating by construction of the read-only `Store`). -/
theorem c7_response_independent_of_headers
    (parse : String → Option JsonVal) (store : Store) (site id : String)
    (dk1 cid1 : Option String) (u1 : String)
    (dk2 cid2 : Option String) (u2 : String) :
    (handleFull parse store site id dk1 cid1 u1).1
      = handleTransaction parse store site id
    ∧ (handleFull parse store site id dk1 cid1 u1).1
      = (handleFull parse store site id dk2 cid2 u2).1 := ⟨rfl, rfl⟩

/-- C8: after the first termination signal sets the shutdown flag, every
subsequent request to any route — the business endpoint included — answers
HTTP 503 with the fixed shutting-down body instead of being processed, and
a second termination signal is a no-op: the state is unchanged and no new
shutdown sequence starts. -/
theorem c8_shutdown_503_and_idempotent
    (ts errMsg : String) (parse : String → Option JsonVal) (store : Store)
    (pingOk : Bool) (latencyMs : Nat) (r : Route) :
    (gracefulShutdown runningState).state.isShuttingDown = true
    ∧ (gracefulShutdown runningState).startsSequence = true
    ∧ dispatch (gracefulShutdown runningState).state ts parse store pingOk
        latencyMs errMsg r
        = (503, .shuttingDown (shutdownResponseBody ts))
    ∧ shutdownResponseBody ts = ⟨"error", "Service is shutting down", ts⟩
    ∧ gracefulShutdown (gracefulShutdown runningState).state
        = ⟨(gracefulShutdown runningState).state, false⟩ :=
  ⟨rfl, rfl, rfl, rfl, rfl⟩

/-- Counterexample to C9 as stated: with the provider key absent, a falsy
JSON value (`null`) at the deposit key and a valid truthy record at the
withdraw key, the handler stops probing at the deposit key — the withdraw
key is never read — and answers not-found, instead of continuing to probe
and finding the withdraw record. -/
theorem c9_counterexample :
    storeFalsyThenValid (legacyKey "deposit" "siteB" "id9")
      = ReadResult.val "null"
    ∧ parseDemo "null" = some .jnull
    ∧ truthy .jnull = false
    ∧ storeFalsyThenValid (legacyKey "withdraw" "siteB" "id9")
        = ReadResult.val recSuccessedText
    ∧ parseDemo recSuccessedText = some recSuccessedVal
    ∧ truthy recSuccessedVal = true
    ∧ (resolve parseDemo storeFalsyThenValid "siteB" "id9").reads
        = [providerKey "id9", legacyKey "deposit" "siteB" "id9"]
    ∧ handleTransaction parseDemo storeFalsyThenValid "siteB" "id9"
        = notFoundResponse := ⟨rfl, rfl, rfl, rfl, rfl, rfl, rfl, rfl⟩

/-- C9 (amended): a parsed falsy JSON value at the provider key is treated
as a miss there — probing continues with the legacy keys — but a successful
parse at a legacy key stops the loop even when the parsed value is falsy,
and when the resolution's final value is falsy the handler answers the
not-found pending response rather than treating it as a found record. -/
theorem c9_falsy_value_behavior
    (parse : String → Option JsonVal) (store : Store) (site id : String)
    (s0 s1 : String) (v w : JsonVal) (ty : String) (rest : List String)
    (t : Option JsonVal)
    (hpv : store (providerKey id) = .val s0) (hne0 : s0 ≠ "")
    (hp0 : parse s0 = some v) (hfv : truthy v = false)
    (hlv : store (legacyKey ty site id) = .val s1) (hne1 : s1 ≠ "")
    (hp1 : parse s1 = some w) :
    resolve parse store site id
      = ⟨(legacyLoop parse store site id TRANSACTION_TYPES (some v)).outcome,
         providerKey id
           :: (legacyLoop parse store site id TRANSACTION_TYPES
                (some v)).reads⟩
    ∧ legacyLoop parse store site id (ty :: rest) t
        = ⟨.ok (some w), [legacyKey ty site id]⟩
    ∧ (∀ w2, (resolve parse store site id).outcome = .ok (some w2) →
        truthy w2 = false →
        handleTransaction parse store site id = notFoundResponse) := by
  refine ⟨?_, ?_, ?_⟩
  · simp [resolve, hpv, hne0, hp0, hfv]
  · simp [legacyLoop, hlv, hne1, hp1]
  · intro w2 hout hf
    simp [handleTransaction, hout, hf]

/-- Witness for C9 (amended) at a concrete input: a falsy `0` at the
provider key falls through to the legacy loop; a falsy `null` at the deposit
key breaks the loop; the final falsy value yields not-found. -/
theorem c9_witness :
    storeFalsyProvider (providerKey "id9") = ReadResult.val "0"
    ∧ parseDemo "0" = some (.jnum 0)
    ∧ truthy (.jnum 0) = false
    ∧ storeFalsyProvider (legacyKey "deposit" "siteB" "id9")
        = ReadResult.val "null"
    ∧ legacyLoop parseDemo storeFalsyProvider "siteB" "id9"
        ("deposit" :: ["withdraw", "settlement"]) (some (.jnum 0))
        = ⟨.ok (some .jnull), [legacyKey "deposit" "siteB" "id9"]⟩
    ∧ handleTransaction parseDemo storeFalsyProvider "siteB" "id9"
        = notFoundResponse := by
  have h := c9_falsy_value_behavior parseDemo storeFalsyProvider "siteB" "id9"
    "0" "null" (.jnum 0) .jnull "deposit" ["withdraw", "settlement"]
    (some (.jnum 0)) rfl (by decide) rfl rfl rfl (by decide) rfl
  exact ⟨rfl, rfl, rfl, rfl, h.2.1, h.2.2 .jnull rfl rfl⟩

/-- C10: when a found record's status field holds a truthy non-string value,
status normalization throws (`.toLowerCase` is not a function); the
endpoint's catch-all turns this into the HTTP 200 pending envelope, and for
every store, parse and route parameters whatsoever the business route
answers 200 with a well-formed envelope — the handler is total and never
surfaces an exception. -/
theorem c10_nonstring_status_caught
    (parse : String → Option JsonVal) (store : Store) (site id : String)
    (s0 : String) (fields : List (String × JsonVal)) (a : JsonVal)
    (hp : store (providerKey id) = .val s0) (hne : s0 ≠ "")
    (hq : parse s0 = some (.jobj fields))
    (hs : fields.lookup "status" = some a)
    (ht : truthy a = true)
    (hstr : ∀ str, a ≠ .jstr str) :
    normalizeStatus (.jobj fields) = .error ()
    ∧ handleTransaction parse store site id = errorResponse
    ∧ errorResponse = ⟨true, "", ⟨"pending", .jnum 0⟩⟩
    ∧ (∀ (parse2 : String → Option JsonVal) (store2 : Store)
         (site2 id2 ts errMsg : String) (pingOk : Bool) (latencyMs : Nat),
        dispatch runningState ts parse2 store2 pingOk latencyMs errMsg
            (.paymentV2 site2 id2)
          = (200, .envelope (handleTransaction parse2 store2 site2 id2))) := by
  have hnorm : normalizeStatus (.jobj fields) = .error () := by
    cases a with
    | jnull => simp [truthy] at ht
    | jbool b => simp [normalizeStatus, statusToLower, getField, hs]
    | jnum n => simp [normalizeStatus, statusToLower, getField, hs]
    | jstr s2 => exact absurd rfl (hstr s2)
    | jarr es => simp [normalizeStatus, statusToLower, getField, hs]
    | jobj fs => simp [normalizeStatus, statusToLower, getField, hs]
  have hres : resolve parse store site id
      = ⟨.ok (some (.jobj fields)), [providerKey id]⟩ := by
    simp [resolve, hp, hne, hq, truthy]
  refine ⟨hnorm, ?_, rfl, fun _ _ _ _ _ _ _ _ => rfl⟩
  simp [handleTransaction, hres, truthy, foundResponse, hnorm]

/-- Witness for C10 at a concrete input: a record whose status is the
truthy number `7`; normalization throws and the handler answers the pending
envelope. -/
theorem c10_witness :
    storeNumStatus (providerKey "id10") = ReadResult.val recNumStatusText
    ∧ parseDemo recNumStatusText = some recNumStatusVal
    ∧ truthy (.jnum 7) = true
    ∧ normalizeStatus recNumStatusVal = .error ()
    ∧ handleTransaction parseDemo storeNumStatus "siteA" "id10"
        = errorResponse := by
  have h := c10_nonstring_status_caught parseDemo storeNumStatus
    "siteA" "id10" recNumStatusText
    [("status", .jnum 7), ("amount", .jnum 300)] (.jnum 7)
    rfl (by decide) rfl rfl rfl (fun str hcontra => nomatch hcontra)
  exact ⟨rfl, rfl, rfl, h.1, h.2.1⟩

end TransactionCheck
